import Mathlib

/-!
Shallow embedding of `tmpssh.py`, a tool that assembles an `authorized_keys`
file from configured sources (local files, URLs, GitHub usernames), generates
a minimal sshd configuration, ensures a persistent host key, and execs sshd.

The filesystem, the network, the umask and the subprocess log are modelled as
explicit state threaded through the functions; fallible operations return
`Except Err`.  Byte strings are `List Nat` (each entry < 256), machine words
are `Nat` reduced modulo `2 ^ 64` where overflow matters.
-/

set_option maxRecDepth 100000

namespace Tmpssh

/-- UTF-8 encoding of one character (Python `str.encode()` on one code point). -/
def utf8Char (ch : Char) : List Nat :=
  let c := ch.toNat
  if c < 0x80 then [c]
  else if c < 0x800 then
    [0xC0 ||| (c >>> 6), 0x80 ||| (c &&& 0x3F)]
  else if c < 0x10000 then
    [0xE0 ||| (c >>> 12), 0x80 ||| ((c >>> 6) &&& 0x3F), 0x80 ||| (c &&& 0x3F)]
  else
    [0xF0 ||| (c >>> 18), 0x80 ||| ((c >>> 12) &&& 0x3F),
     0x80 ||| ((c >>> 6) &&& 0x3F), 0x80 ||| (c &&& 0x3F)]

/-- UTF-8 encoding of a string, as Python `url.encode()`. -/
def utf8Encode (s : String) : List Nat :=
  s.toList.foldr (fun ch acc => utf8Char ch ++ acc) []

/-! ### SHA3-256 (FIPS 202), as used by `hashlib.sha3_256(...).hexdigest()`

The Keccak state is a flat list of 25 lanes (index `x + 5 * y`), each lane a
`Nat` kept below `2 ^ 64`. -/

/-- Truncate to a 64-bit word. -/
def w64 (n : Nat) : Nat := n % (2 ^ 64)

/-- Rotate a 64-bit word left by `r` (for `r < 64`). -/
def rotl64 (n r : Nat) : Nat := w64 ((n <<< r) ||| (n >>> (64 - r)))

/-- Lane read from the flat Keccak state. -/
def lane (s : List Nat) (x y : Nat) : Nat := s.getD (x % 5 + 5 * (y % 5)) 0

/-- Keccak θ step. -/
def theta (s : List Nat) : List Nat :=
  let c := (List.range 5).map (fun x =>
    Nat.xor (lane s x 0) (Nat.xor (lane s x 1)
      (Nat.xor (lane s x 2) (Nat.xor (lane s x 3) (lane s x 4)))))
  let d := (List.range 5).map (fun x =>
    Nat.xor (c.getD ((x + 4) % 5) 0) (rotl64 (c.getD ((x + 1) % 5) 0) 1))
  (List.range 25).map (fun i => Nat.xor (s.getD i 0) (d.getD (i % 5) 0))

/-- Rotation offsets, stored column-wise: entry `5 * x + y` holds the offset
of lane `(x, y)`. -/
def rotOffsets : List Nat :=
  [0, 36, 3, 41, 18,
   1, 44, 10, 45, 2,
   62, 6, 43, 15, 61,
   28, 55, 25, 21, 56,
   27, 20, 39, 8, 14]

/-- Keccak ρ and π steps combined: output lane `(x, y)` is the source lane
`((x + 3 * y) % 5, x)` rotated by its offset. -/
def rhoPi (s : List Nat) : List Nat :=
  (List.range 25).map (fun i =>
    let x := i % 5
    let y := i / 5
    let sx := (x + 3 * y) % 5
    let sy := x
    rotl64 (lane s sx sy) (rotOffsets.getD (5 * sx + sy) 0))

/-- Keccak χ step. -/
def chi (s : List Nat) : List Nat :=
  (List.range 25).map (fun i =>
    let x := i % 5
    let y := i / 5
    Nat.xor (lane s x y)
      (Nat.land (Nat.xor (lane s (x + 1) y) 0xFFFFFFFFFFFFFFFF) (lane s (x + 2) y)))

/-- Keccak round constants (decimal). -/
def roundConstants : List Nat :=
  [1, 32898, 9223372036854808714,
   9223372039002292224, 32907, 2147483649,
   9223372039002292353, 9223372036854808585, 138,
   136, 2147516425, 2147483658,
   2147516555, 9223372036854775947, 9223372036854808713,
   9223372036854808579, 9223372036854808578, 9223372036854775936,
   32778, 9223372039002259466, 9223372039002292353,
   9223372036854808704, 2147483649, 9223372039002292232]

/-- Keccak ι step for round `r`. -/
def iota (r : Nat) (s : List Nat) : List Nat :=
  match s with
  | [] => []
  | a :: rest => Nat.xor a (roundConstants.getD r 0) :: rest

/-- The Keccak-f[1600] permutation: 24 rounds of θ, ρπ, χ, ι. -/
def keccakF (s : List Nat) : List Nat :=
  (List.range 24).foldl (fun st r => iota r (chi (rhoPi (theta st)))) s

/-- SHA3 padding (domain suffix 0x06, pad10*1) to a multiple of the 136-byte
rate. -/
def sha3Pad (msg : List Nat) : List Nat :=
  let q := 136 - msg.length % 136
  if q = 1 then msg ++ [0x86]
  else msg ++ 0x06 :: List.replicate (q - 2) 0 ++ [0x80]

/-- Little-endian lane `j` of a 136-byte block. -/
def blockLane (block : List Nat) (j : Nat) : Nat :=
  (List.range 8).foldr (fun k acc => block.getD (8 * j + k) 0 * 2 ^ (8 * k) + acc) 0

/-- Absorb one rate-sized block into the state. -/
def absorbBlock (st block : List Nat) : List Nat :=
  keccakF ((List.range 25).map (fun j => Nat.xor (st.getD j 0) (blockLane block j)))

/-- Absorb a padded message (length a multiple of 136). -/
def absorb (padded : List Nat) : List Nat :=
  (List.range (padded.length / 136)).foldl
    (fun st i => absorbBlock st ((padded.drop (136 * i)).take 136))
    (List.replicate 25 0)

/-- The 32 output bytes of SHA3-256. -/
def sha3_256_bytes (msg : List Nat) : List Nat :=
  let st := absorb (sha3Pad msg)
  (List.range 32).map (fun i => (st.getD (i / 8) 0 >>> (8 * (i % 8))) &&& 0xFF)

/-- Lowercase hex digit characters. -/
def hexDigits : List Char :=
  "0123456789abcdef".data

/-- Two lowercase hex characters for one byte. -/
def hexByte (b : Nat) : List Char :=
  [hexDigits.getD (b / 16 % 16) '0', hexDigits.getD (b % 16) '0']

/-- Python `hashlib.sha3_256(s.encode()).hexdigest()`: the lowercase hex digest of the
SHA3-256 hash of the UTF-8 encoding of `s`. -/
def sha3_256_hexdigest (s : String) : String :=
  String.mk ((sha3_256_bytes (utf8Encode s)).foldr (fun b acc => hexByte b ++ acc) [])

/-! ### Data model

`Env` holds the read-only ambient environment of one run (home directory,
`XDG_STATE_HOME`, the current user, the network, `shutil.which`, and the key
material `ssh-keygen` would produce).  `St` is the mutable world: the
filesystem (files and created directories), the process umask, the log of
HTTP GETs issued, the log of `subprocess.run` invocations, and a counter
feeding `tempfile`'s fresh-name generator. -/

/-- An HTTP response: status code and body text.  `requests.get` either
yields one of these or fails to complete (modelled as `none` in
`Env.network`). -/
structure Response where
  status : Nat
  body : String

/-- Failures that abort a run: `usageError` is `parser.error` (argparse exits
with status 2 after printing usage), `fetchError` a `requests` failure,
`ioError` a filesystem error such as reading a missing file, and
`launchError` the failure of `os.execv` when `shutil.which` found no
executable. -/
inductive Err where
  | usageError (msg : String)
  | fetchError (url : String)
  | ioError (path : String)
  | launchError
deriving DecidableEq, Repr

/-- A regular file: its bytes and its permission mode. -/
structure FileData where
  bytes : List Nat
  mode : Nat
deriving DecidableEq, Repr

/-- Read-only environment of a run. -/
structure Env where
  home : String
  xdgStateHome : Option String
  username : String
  network : String → Option Response
  whichSshd : Option String
  keyMaterial : Nat → List Nat

/-- Mutable world state threaded through the embedded program. -/
structure St where
  fs : String → Option FileData
  dirs : List (String × Nat)
  umask : Nat
  fetchLog : List String
  runLog : List (List String)
  tmpCounter : Nat

/-- Parsed command-line arguments (`create_parser` in the source: `--file`,
`--url` and `--github` are repeatable and absent by default; `--port`
defaults to 2222; `--quiet` defaults to off). -/
structure Args where
  file : Option (List String) := none
  url : Option (List String) := none
  github : Option (List String) := none
  port : String := "2222"
  quiet : Bool := false

/-- The constant `STATE_DIR`: `$XDG_STATE_HOME/tmpssh` if the variable is set, else
`~/.local/state/tmpssh`. -/
def stateDir (env : Env) : String :=
  (match env.xdgStateHome with
   | some p => p
   | none => env.home ++ "/.local/state") ++ "/tmpssh"

/-- The URL `GITHUB_KEYS_ENDPOINT.format(username=...)` derived for a GitHub user. -/
def githubKeysUrl (username : String) : String :=
  "https://github.com/" ++ username ++ ".keys"

/-- A permission request masked by the current umask (POSIX `mode & ~umask`,
within the low 12 bits). -/
def maskMode (mode umask : Nat) : Nat :=
  mode &&& (0o7777 ^^^ (umask &&& 0o7777))

/-- Overwrite one file in the filesystem map. -/
def setFile (s : St) (path : String) (fd : FileData) : St :=
  { s with fs := fun q => if q = path then some fd else s.fs q }

/-- Python `Path.mkdir(mode=..., exist_ok=True, parents=True)`: records the directory
with the umask-masked mode; an existing directory is left untouched. -/
def mkdirP (s : St) (path : String) (mode : Nat) : St :=
  if (s.dirs.lookup path).isSome then s
  else { s with dirs := (path, maskMode mode s.umask) :: s.dirs }

/-- Python `open(path, 'w')` followed by writing `content`: creates the file with
mode `0o666 & ~umask` (or keeps the mode of an existing file) and replaces
its bytes with the UTF-8 encoding of `content`. -/
def writeTextFile (s : St) (path : String) (content : String) : St :=
  match s.fs path with
  | some fd => setFile s path { bytes := utf8Encode content, mode := fd.mode }
  | none => setFile s path { bytes := utf8Encode content, mode := maskMode 0o666 s.umask }

/-- The fresh name `tempfile.NamedTemporaryFile` hands out for the `n`-th
temporary file of the run. -/
def tmpName (n : Nat) : String :=
  "/tmp/tmp" ++ toString n

/-! ### The embedded source functions -/

/-- Source function `do_get`: one `requests.get` (recorded in the fetch log) followed by
`raise_for_status()` — an unreachable server or a 4xx/5xx status raises, any
other response returns its body text. -/
def do_get (env : Env) (url : String) (s : St) : Except Err String × St :=
  let s1 : St := { s with fetchLog := s.fetchLog ++ [url] }
  match env.network url with
  | none => (.error (.fetchError url), s1)
  | some r =>
    if 400 ≤ r.status ∧ r.status < 600 then (.error (.fetchError url), s1)
    else (.ok r.body, s1)

/-- The cache directory `STATE_DIR / 'pubkeys'`. -/
def cacheDirOf (env : Env) : String :=
  stateDir env ++ "/pubkeys"

/-- Source function `ensure_cache_dir`: create the cache directory with mode `0o700`
(`exist_ok=True, parents=True`) and return its path. -/
def ensure_cache_dir (env : Env) (s : St) : String × St :=
  (cacheDirOf env, mkdirP s (cacheDirOf env) 0o700)

/-- Source function `get_and_save_url`: fetch `url` and write the body text to `file`. -/
def get_and_save_url (env : Env) (file url : String) (s : St) : Except Err Unit × St :=
  match do_get env url s with
  | (.ok content, s1) => (.ok (), writeTextFile s1 file content)
  | (.error e, s1) => (.error e, s1)

/-- The cache slot name for a URL:
`hashlib.sha3_256(url.encode()).hexdigest()`. -/
def cacheFileName (url : String) : String :=
  sha3_256_hexdigest url

/-- The body of the URL loop in `make_authorized_keys`: compute the cache
path from the hash of the URL, fetch and save only if no file exists there,
and yield the cache path as a resolved source. -/
def resolveUrl (env : Env) (cacheDir url : String) (s : St) : Except Err String × St :=
  let path := cacheDir ++ "/" ++ cacheFileName url
  if (s.fs path).isSome then (.ok path, s)
  else
    match get_and_save_url env path url s with
    | (.ok _, s1) => (.ok path, s1)
    | (.error e, s1) => (.error e, s1)

/-- The URL loop of `make_authorized_keys`: resolve each URL in order into a
cache path; a failed fetch aborts immediately. -/
def resolveUrls (env : Env) (cacheDir : String) (urls : List String) (s : St) :
    Except Err (List String) × St :=
  match urls with
  | [] => (.ok [], s)
  | u :: rest =>
    match resolveUrl env cacheDir u s with
    | (.ok p, s1) =>
      match resolveUrls env cacheDir rest s1 with
      | (.ok ps, s2) => (.ok (p :: ps), s2)
      | (.error e, s2) => (.error e, s2)
    | (.error e, s1) => (.error e, s1)

/-- The write loop of `merge_files`: append the bytes of each source file to
`dst` in order; a missing source raises after the earlier ones were already
written. -/
def writeAll (dst : String) (files : List String) (s : St) : Except Err Unit × St :=
  match files with
  | [] => (.ok (), s)
  | f :: rest =>
    match s.fs f with
    | none => (.error (.ioError f), s)
    | some fd =>
      match s.fs dst with
      | none => (.error (.ioError dst), s)
      | some dstFd => writeAll dst rest (setFile s dst { dstFd with bytes := dstFd.bytes ++ fd.bytes })

/-- Source function `merge_files`: create a fresh temporary file (`NamedTemporaryFile` with
`delete=False` creates it empty with mode `0o600`), write the raw bytes of
every source into it in order, and return its name. -/
def merge_files (files : List String) (s : St) : Except Err String × St :=
  let name := tmpName s.tmpCounter
  let s1 := setFile { s with tmpCounter := s.tmpCounter + 1 } name { bytes := [], mode := 0o600 }
  match writeAll name files s1 with
  | (.ok _, s2) => (.ok name, s2)
  | (.error e, s2) => (.error e, s2)

/-- The usage message passed to `parser.error` in the zero-source branch. -/
def noSourcesMsg : String :=
  "No key sources given, and ~/.ssh/authorized_keys does not exist."

/-- The final dispatch of `make_authorized_keys` on the resolved source list:
zero sources fall back to `~/.ssh/authorized_keys` or raise a usage error,
one source is returned as-is, several are merged. -/
def selectSource (env : Env) (sources : List String) (s : St) : Except Err String × St :=
  match sources with
  | [] =>
    let authorized_keys := env.home ++ "/.ssh/authorized_keys"
    if (s.fs authorized_keys).isSome then (.ok authorized_keys, s)
    else (.error (.usageError noSourcesMsg), s)
  | [single] => (.ok single, s)
  | _ => merge_files sources s

/-- Source function `make_authorized_keys`: collect `--file` sources, derive URLs from
`--url` and `--github`, and if any URL is present ensure the cache directory,
set the umask to `0o022` for the duration of the URL loop (restoring the
previous value only after every URL resolved), then dispatch on the number of
resolved sources. -/
def make_authorized_keys (env : Env) (args : Args) (s : St) : Except Err String × St :=
  let sources := args.file.getD []
  let urls := args.url.getD [] ++ (args.github.getD []).map githubKeysUrl
  if urls.isEmpty then selectSource env sources s
  else
    let cacheDir := (ensure_cache_dir env s).1
    let s1 := (ensure_cache_dir env s).2
    let prev_mask := s1.umask
    let s2 : St := { s1 with umask := 0o022 }
    match resolveUrls env cacheDir urls s2 with
    | (.ok ps, s3) => selectSource env (sources ++ ps) { s3 with umask := prev_mask }
    | (.error e, s3) => (.error e, s3)

/-- Source function `generate_sshd_config`: the literal f-string rendered by the source. -/
def generate_sshd_config (authorized_keys : String) (user : String) : String :=
  "\nAuthorizedKeysFile\t" ++ authorized_keys ++
  "\nAllowUsers\t" ++ user ++
  "\nPubkeyAuthentication\tyes\nPasswordAuthentication\tno\nPermitRootLogin\tno\n"

/-- The host key path `STATE_DIR / 'host_ed25519_key'`. -/
def hostKeyPath (env : Env) : String :=
  stateDir env ++ "/host_ed25519_key"

/-- The argument vector `ensure_host_key` passes to `subprocess.run`. -/
def sshKeygenArgv (hostKey : String) : List String :=
  ["ssh-keygen", "-q", "-N", "", "-t", "ed25519", "-f", hostKey]

/-- Source function `ensure_host_key`: create `STATE_DIR` with mode `0o700`, and if no file
exists at the host key path run `ssh-keygen -q -N '' -t ed25519 -f <path>`,
which writes the private key (mode `0o600`) and its `.pub` counterpart
(mode `0o644`); the key material of the `n`-th generation of the run comes
from the environment. -/
def ensure_host_key (env : Env) (s : St) : String × St :=
  let host_key := hostKeyPath env
  let s1 := mkdirP s (stateDir env) 0o700
  if (s1.fs host_key).isSome then (host_key, s1)
  else
    let s2 : St := { s1 with runLog := s1.runLog ++ [sshKeygenArgv host_key] }
    let material := env.keyMaterial s1.runLog.length
    (host_key,
     setFile (setFile s2 host_key { bytes := material, mode := 0o600 })
       (host_key ++ ".pub") { bytes := material ++ [46], mode := 0o644 })

/-- Source function `get_username`: `pwd.getpwuid(os.getuid())[0]`, the invoking user's login
name. -/
def get_username (env : Env) : String :=
  env.username

/-- The process image the launcher replaces itself with: the program and its
argument vector. -/
structure ExecCall where
  prog : String
  argv : List String
deriving DecidableEq, Repr

/-- Source function `main` after argument parsing: assemble the authorized-keys path, render
the sshd configuration and write it to a fresh temporary file, ensure the
host key, locate `sshd` on the search path, and exec it with `-Dp <port> -f
<config> -h <hostkey>` plus `-e` unless `--quiet` was given.  `shutil.which`
finding nothing makes `os.execv` raise (the launch error); otherwise the
process image is replaced by the returned `ExecCall`. -/
def main (env : Env) (args : Args) (s : St) : Except Err ExecCall × St :=
  match make_authorized_keys env args s with
  | (.error e, s1) => (.error e, s1)
  | (.ok authorized_keys_path, s1) =>
    let sshd_config := generate_sshd_config authorized_keys_path (get_username env)
    let cfgPath := tmpName s1.tmpCounter
    let s2 := setFile { s1 with tmpCounter := s1.tmpCounter + 1 } cfgPath
      { bytes := utf8Encode sshd_config, mode := 0o600 }
    let host_key := (ensure_host_key env s2).1
    let s3 := (ensure_host_key env s2).2
    match env.whichSshd with
    | none => (.error .launchError, s3)
    | some sshd =>
      let argv := [sshd, "-Dp", args.port, "-f", cfgPath, "-h", host_key] ++
        (if args.quiet then [] else ["-e"])
      (.ok { prog := sshd, argv := argv }, s3)

/-! ### Spec-side observers

These are not source functions: they are the vocabulary of the claims — the
concatenated bytes of a list of source files, and a line/directive parser for
the generated configuration text. -/

/-- The bytes of a file (empty for a missing one). -/
def bytesOf (s : St) (f : String) : List Nat :=
  match s.fs f with
  | some fd => fd.bytes
  | none => []

/-- Concatenation of the bytes of the given files, in order. -/
def flatBytes (s : St) (files : List String) : List Nat :=
  files.foldr (fun f acc => bytesOf s f ++ acc) []

/-- Split a character list at newline characters: the first line and the
remaining lines. -/
def splitNl : List Char → List Char × List (List Char)
  | [] => ([], [])
  | c :: cs =>
    let r := splitNl cs
    if c = '\n' then ([], r.1 :: r.2) else (c :: r.1, r.2)

/-- The lines of a string (split at every newline). -/
def linesOf (s : String) : List (List Char) :=
  (splitNl s.data).1 :: (splitNl s.data).2

/-- Strip a directive keyword from the front of a line: `some rest` when the
line starts with the keyword, else `none`. -/
def stripKey : List Char → List Char → Option (List Char)
  | [], rest => some rest
  | _ :: _, [] => none
  | k :: ks, c :: cs => if k = c then stripKey ks cs else none

/-- Whether a path string is absolute (POSIX: starts with a slash). -/
def isAbsolute (p : String) : Bool :=
  match p.data with
  | '/' :: _ => true
  | _ => false

/-! ### Concrete fixtures

A small concrete environment and world used by the witness theorems: two
local key files, one GitHub user whose keys URL answers with status 200, an
`sshd` on the search path, and an empty state directory. -/

/-- The GitHub keys URL for user `alice`. -/
def ghUrl : String := "https://github.com/alice.keys"

/-- A concrete environment for witnesses. -/
def env0 : Env :=
  { home := "/home/u"
    xdgStateHome := none
    username := "alice"
    network := fun u => if u = ghUrl then some { status := 200, body := "keyA\n" } else none
    whichSshd := some "/usr/sbin/sshd"
    keyMaterial := fun n => [n] }

/-- A concrete initial world for witnesses: two key files, nothing else. -/
def st0 : St :=
  { fs := fun q =>
      if q = "/keys/a" then some { bytes := [107, 101, 121, 65, 10], mode := 0o644 }
      else if q = "/keys/b" then some { bytes := [107, 101, 121, 66, 10], mode := 0o644 }
      else none
    dirs := []
    umask := 0o022
    fetchLog := []
    runLog := []
    tmpCounter := 0 }

/-- The cache slot `resolveUrl` uses for `ghUrl` under `env0`. -/
def ghPath : String := cacheDirOf env0 ++ "/" ++ cacheFileName ghUrl

/-- The world after the first resolution of `ghUrl` from `st0`. -/
def ghSt1 : St := (resolveUrl env0 (cacheDirOf env0) ghUrl st0).2

/-! ### Validation of the hash embedding against the FIPS 202 test vectors -/

/-- SHA3-256 of the empty string matches the published test vector. -/
theorem sha3_256_hexdigest_empty :
    sha3_256_hexdigest "" =
      "a7ffc6f8bf1ed76651c14756a061d662f580ff4de43b49fa82d80a4b80f8434a" := by
  rfl

/-- SHA3-256 of "abc" matches the published test vector. -/
theorem sha3_256_hexdigest_abc :
    sha3_256_hexdigest "abc" =
      "3a985da74fe225b2045c172d6bd390bd855f086e3e9d525b46bfe24511431532" := by
  rfl

/-! ### Frame lemmas for the primitive state operations -/

theorem mkdirP_fs (s : St) (p : String) (m : Nat) : (mkdirP s p m).fs = s.fs := by
  unfold mkdirP; split <;> rfl

theorem mkdirP_umask (s : St) (p : String) (m : Nat) : (mkdirP s p m).umask = s.umask := by
  unfold mkdirP; split <;> rfl

theorem mkdirP_fetchLog (s : St) (p : String) (m : Nat) :
    (mkdirP s p m).fetchLog = s.fetchLog := by
  unfold mkdirP; split <;> rfl

theorem mkdirP_runLog (s : St) (p : String) (m : Nat) : (mkdirP s p m).runLog = s.runLog := by
  unfold mkdirP; split <;> rfl

theorem mkdirP_tmpCounter (s : St) (p : String) (m : Nat) :
    (mkdirP s p m).tmpCounter = s.tmpCounter := by
  unfold mkdirP; split <;> rfl

theorem setFile_fs_self (s : St) (p : String) (fd : FileData) :
    (setFile s p fd).fs p = some fd := by
  simp [setFile]

theorem setFile_fs_ne (s : St) (p : String) (fd : FileData) (q : String) (h : q ≠ p) :
    (setFile s p fd).fs q = s.fs q := by
  simp [setFile, h]

/-- Appending a non-empty suffix changes a string. -/
theorem append_ne_of_ne_empty (a b : String) (hb : b ≠ "") : a ++ b ≠ a := by
  intro h
  apply hb
  have hl := congrArg String.length h
  rw [String.length_append] at hl
  have : b.length = 0 := by omega
  cases b with
  | mk data =>
    cases data with
    | nil => rfl
    | cons c cs => simp [String.length, List.length] at this

/-! ### Claim theorems (first group) -/

/-- C6: with exactly one resolved key source, `make_authorized_keys` returns
that source's path unchanged and leaves the whole world state untouched — no
copy, no merge, no fetch, no temporary file. -/
theorem make_single_source_identity (env : Env) (f port : String) (quiet : Bool) (s : St) :
    make_authorized_keys env { file := some [f], port := port, quiet := quiet } s = (.ok f, s) :=
  rfl

/-- C4: with zero key sources configured, `make_authorized_keys` returns
`~/.ssh/authorized_keys` (state untouched) when that file exists, and
otherwise fails with the `parser.error` usage message; in the failing case
`main` terminates with that usage error and never reaches the launch step
(no `ExecCall` is produced). -/
theorem make_zero_sources_fallback (env : Env) (port : String) (quiet : Bool) (s : St) :
    make_authorized_keys env { port := port, quiet := quiet } s =
      ((if (s.fs (env.home ++ "/.ssh/authorized_keys")).isSome
        then .ok (env.home ++ "/.ssh/authorized_keys")
        else .error (.usageError noSourcesMsg)), s)
    ∧ (s.fs (env.home ++ "/.ssh/authorized_keys") = none →
        main env { port := port, quiet := quiet } s = (.error (.usageError noSourcesMsg), s)) := by
  have h1 : make_authorized_keys env { port := port, quiet := quiet } s
      = selectSource env [] s := rfl
  constructor
  · rw [h1]
    by_cases hc : (s.fs (env.home ++ "/.ssh/authorized_keys")).isSome
    · simp [selectSource, hc]
    · simp [selectSource, hc]
  · intro h
    have h2 : make_authorized_keys env { port := port, quiet := quiet } s
        = (.error (.usageError noSourcesMsg), s) := by
      rw [h1]; simp [selectSource, h]
    simp [main, h2]

/-- C5: `ensure_host_key` always returns the fixed host-key path; a second
call returns the same path and changes neither the filesystem nor the
subprocess log (in particular it does not overwrite the key file's
contents).  When no key file exists yet, the first call runs
`ssh-keygen -q -N '' -t ed25519 -f <path>` — an elliptic-curve key with an
empty passphrase — and the key file appears at that path; when one exists,
its contents are kept and no subprocess runs. -/
theorem hostKeyPub_ne (env : Env) : hostKeyPath env ++ ".pub" ≠ hostKeyPath env :=
  append_ne_of_ne_empty _ _ (by decide)

theorem ensure_host_key_fst (env : Env) (t : St) :
    (ensure_host_key env t).1 = hostKeyPath env := by
  unfold ensure_host_key
  dsimp only
  split <;> rfl

theorem ensure_host_key_hit (env : Env) (t : St)
    (h : (t.fs (hostKeyPath env)).isSome = true) :
    ensure_host_key env t = (hostKeyPath env, mkdirP t (stateDir env) 0o700) := by
  unfold ensure_host_key
  simp [mkdirP_fs, h]

theorem ensure_host_key_miss_fs (env : Env) (t : St)
    (h : t.fs (hostKeyPath env) = none) :
    (ensure_host_key env t).2.fs (hostKeyPath env)
      = some { bytes := env.keyMaterial t.runLog.length, mode := 0o600 } := by
  unfold ensure_host_key
  simp only [mkdirP_fs, h, Option.isSome_none, Bool.false_eq_true, if_false]
  rw [setFile_fs_ne _ _ _ _ (Ne.symm (hostKeyPub_ne env)), setFile_fs_self, mkdirP_runLog]

theorem ensure_host_key_miss_runLog (env : Env) (t : St)
    (h : t.fs (hostKeyPath env) = none) :
    (ensure_host_key env t).2.runLog = t.runLog ++ [sshKeygenArgv (hostKeyPath env)] := by
  unfold ensure_host_key
  simp only [mkdirP_fs, h, Option.isSome_none, Bool.false_eq_true, if_false]
  show (mkdirP t (stateDir env) 0o700).runLog ++ _ = _
  rw [mkdirP_runLog]

theorem ensure_host_key_fs_isSome (env : Env) (t : St) :
    ((ensure_host_key env t).2.fs (hostKeyPath env)).isSome = true := by
  cases hx : t.fs (hostKeyPath env) with
  | some fd =>
    rw [ensure_host_key_hit env t (by rw [hx]; rfl)]
    simp [mkdirP_fs, hx]
  | none =>
    rw [ensure_host_key_miss_fs env t hx]
    rfl

/-- C5: `ensure_host_key` always returns the fixed host-key path; a second
call returns the same path and changes neither the filesystem nor the
subprocess log (in particular it does not overwrite the key file's
contents).  When no key file exists yet, the first call runs
`ssh-keygen -q -N '' -t ed25519 -f <path>` — an elliptic-curve key with an
empty passphrase — and the key file appears at that path with the generated
material; when one exists, its contents are kept and no subprocess runs. -/
theorem ensure_host_key_idempotent (env : Env) (s : St) :
    (ensure_host_key env s).1 = hostKeyPath env
    ∧ (ensure_host_key env (ensure_host_key env s).2).1 = (ensure_host_key env s).1
    ∧ (ensure_host_key env (ensure_host_key env s).2).2.fs = (ensure_host_key env s).2.fs
    ∧ (ensure_host_key env (ensure_host_key env s).2).2.runLog = (ensure_host_key env s).2.runLog
    ∧ (match s.fs (hostKeyPath env) with
       | some fd =>
          (ensure_host_key env s).2.fs (hostKeyPath env) = some fd
          ∧ (ensure_host_key env s).2.runLog = s.runLog
       | none =>
          (ensure_host_key env s).2.fs (hostKeyPath env)
            = some { bytes := env.keyMaterial s.runLog.length, mode := 0o600 }
          ∧ (ensure_host_key env s).2.runLog
            = s.runLog ++ [sshKeygenArgv (hostKeyPath env)]) := by
  have hsecond : ensure_host_key env (ensure_host_key env s).2
      = (hostKeyPath env, mkdirP (ensure_host_key env s).2 (stateDir env) 0o700) :=
    ensure_host_key_hit env _ (ensure_host_key_fs_isSome env s)
  refine ⟨ensure_host_key_fst env s, ?_, ?_, ?_, ?_⟩
  · rw [hsecond, ensure_host_key_fst env s]
  · rw [hsecond, mkdirP_fs]
  · rw [hsecond, mkdirP_runLog]
  · cases hx : s.fs (hostKeyPath env) with
    | some fd =>
      have hhit := ensure_host_key_hit env s (by rw [hx]; rfl)
      exact ⟨by rw [hhit, mkdirP_fs, hx], by rw [hhit, mkdirP_runLog]⟩
    | none =>
      exact ⟨ensure_host_key_miss_fs env s hx, ensure_host_key_miss_runLog env s hx⟩

/-! ### Helper lemmas: text writes, fetches and URL resolution -/

theorem writeTextFile_fs_self (s : St) (p : String) (c : String) :
    ∃ m, (writeTextFile s p c).fs p = some { bytes := utf8Encode c, mode := m } := by
  unfold writeTextFile
  cases s.fs p <;> exact ⟨_, setFile_fs_self _ _ _⟩

theorem writeTextFile_fs_ne (s : St) (p : String) (c : String) (q : String) (h : q ≠ p) :
    (writeTextFile s p c).fs q = s.fs q := by
  unfold writeTextFile
  cases s.fs p <;> exact setFile_fs_ne _ _ _ _ h

theorem writeTextFile_create (s : St) (p : String) (c : String) (h : s.fs p = none) :
    (writeTextFile s p c).fs p
      = some { bytes := utf8Encode c, mode := maskMode 0o666 s.umask } := by
  unfold writeTextFile
  rw [h]
  exact setFile_fs_self _ _ _

/-- A single resolved source reduces `make_authorized_keys` to the identity. -/
theorem make_single_eq (env : Env) (f port : String) (quiet : Bool) (s : St) :
    make_authorized_keys env { file := some [f], port := port, quiet := quiet } s = (.ok f, s) :=
  rfl

theorem do_get_fetchLog (env : Env) (url : String) (s : St) :
    (do_get env url s).2.fetchLog = s.fetchLog ++ [url] := by
  unfold do_get
  cases env.network url with
  | none => rfl
  | some r =>
    dsimp only
    split <;> rfl

theorem resolveUrl_hit (env : Env) (cd url : String) (s : St)
    (h : (s.fs (cd ++ "/" ++ cacheFileName url)).isSome = true) :
    resolveUrl env cd url s = (.ok (cd ++ "/" ++ cacheFileName url), s) := by
  unfold resolveUrl
  simp [h]

theorem resolveUrl_miss_ok (env : Env) (cd url : String) (s : St) (r : Response)
    (h : s.fs (cd ++ "/" ++ cacheFileName url) = none)
    (hr : env.network url = some r)
    (hst : ¬(400 ≤ r.status ∧ r.status < 600)) :
    resolveUrl env cd url s =
      (.ok (cd ++ "/" ++ cacheFileName url),
       writeTextFile { s with fetchLog := s.fetchLog ++ [url] }
         (cd ++ "/" ++ cacheFileName url) r.body) := by
  unfold resolveUrl get_and_save_url do_get
  simp [h, hr, hst]

theorem resolveUrl_fail (env : Env) (cd url : String) (s : St)
    (h : s.fs (cd ++ "/" ++ cacheFileName url) = none)
    (herr : env.network url = none
      ∨ ∃ r, env.network url = some r ∧ 400 ≤ r.status ∧ r.status < 600) :
    resolveUrl env cd url s =
      (.error (.fetchError url), { s with fetchLog := s.fetchLog ++ [url] }) := by
  unfold resolveUrl get_and_save_url do_get
  rcases herr with hn | ⟨r, hr, hst⟩
  · simp [h, hn]
  · simp [h, hr, hst]

/-! ### Claim theorems (second group) -/

/-- C8: when `shutil.which` finds no `sshd`, `main` fails with the launch
error; otherwise it replaces the process image with `sshd -Dp <port> -f
<generated config file> -h <host key>`, appending the verbose flag `-e`
exactly when `--quiet` is not set.  The `Args` default records argparse's
default port of 2222.  (Run with one `--file` source so every earlier stage
succeeds deterministically.) -/
theorem main_launch_contract (env : Env) (f port : String) (quiet : Bool) (s : St) :
    ({ file := some [f] } : Args).port = "2222"
    ∧ (env.whichSshd = none →
        (main env { file := some [f], port := port, quiet := quiet } s).1
          = .error .launchError)
    ∧ (∀ exe, env.whichSshd = some exe →
        (main env { file := some [f], port := port, quiet := quiet } s).1
          = .ok { prog := exe,
                  argv := [exe, "-Dp", port, "-f", tmpName s.tmpCounter, "-h", hostKeyPath env]
                    ++ (if quiet then [] else ["-e"]) }) := by
  refine ⟨rfl, ?_, ?_⟩
  · intro h
    simp [main, make_single_eq, h]
  · intro exe h
    simp [main, make_single_eq, h, ensure_host_key_fst]

/-- C7: `do_get` performs exactly one HTTP GET (the fetch log grows by the
one URL — no retries), returns the response body exactly when the server
answered with a non-error status, and fails with the fetch error exactly
when the request could not complete or came back with a 4xx/5xx status.
A failed fetch of a configured, uncached `--url` source aborts the whole
run: `main` ends in that fetch error and no process image is produced. -/
theorem do_get_contract (env : Env) (url port : String) (quiet : Bool) (s : St) :
    (do_get env url s).2.fetchLog = s.fetchLog ++ [url]
    ∧ (∀ b, (do_get env url s).1 = .ok b ↔
        ∃ r, env.network url = some r ∧ ¬(400 ≤ r.status ∧ r.status < 600) ∧ b = r.body)
    ∧ ((do_get env url s).1 = .error (.fetchError url) ↔
        (env.network url = none ∨ ∃ r, env.network url = some r ∧ 400 ≤ r.status ∧ r.status < 600))
    ∧ (env.network url = none →
        s.fs (cacheDirOf env ++ "/" ++ cacheFileName url) = none →
        (main env { url := some [url], port := port, quiet := quiet } s).1
          = .error (.fetchError url)) := by
  refine ⟨do_get_fetchLog env url s, ?_, ?_, ?_⟩
  · intro b
    unfold do_get
    cases hn : env.network url with
    | none => simp
    | some r =>
      dsimp only
      by_cases hc : 400 ≤ r.status ∧ r.status < 600
      · rw [if_pos hc]
        constructor
        · intro hb
          exact absurd hb (by simp)
        · rintro ⟨r', hrr, hc', hb⟩
          cases Option.some.inj hrr
          exact absurd hc hc'
      · rw [if_neg hc]
        constructor
        · intro hb
          exact ⟨r, rfl, hc, (Except.ok.inj hb).symm⟩
        · rintro ⟨r', hrr, hc', hb⟩
          cases Option.some.inj hrr
          rw [hb]
  · unfold do_get
    cases hn : env.network url with
    | none => simp
    | some r =>
      dsimp only
      by_cases hc : 400 ≤ r.status ∧ r.status < 600
      · rw [if_pos hc]
        constructor
        · intro _
          exact Or.inr ⟨r, rfl, hc.1, hc.2⟩
        · intro _
          rfl
      · rw [if_neg hc]
        constructor
        · intro hb
          exact absurd hb (by simp)
        · rintro (hnone | ⟨r', hrr, h4, h6⟩)
          · exact absurd hnone (by simp)
          · cases Option.some.inj hrr
            exact absurd ⟨h4, h6⟩ hc
  · intro hn hcache
    have hmk : make_authorized_keys env { url := some [url], port := port, quiet := quiet } s
        = (.error (.fetchError url),
           { mkdirP s (cacheDirOf env) 0o700 with
             umask := 0o022,
             fetchLog := (mkdirP s (cacheDirOf env) 0o700).fetchLog ++ [url] }) := by
      have hfs : ({ mkdirP s (cacheDirOf env) 0o700 with umask := 0o022 } : St).fs
          (cacheDirOf env ++ "/" ++ cacheFileName url) = none := by
        show (mkdirP s (cacheDirOf env) 0o700).fs _ = none
        rw [mkdirP_fs]
        exact hcache
      have hres := resolveUrl_fail env (cacheDirOf env) url
        { mkdirP s (cacheDirOf env) 0o700 with umask := 0o022 } hfs (Or.inl hn)
      unfold make_authorized_keys
      simp only [Option.getD_none, Option.getD_some, List.map_nil, List.append_nil,
        List.nil_append, List.isEmpty_cons, Bool.false_eq_true, if_false]
      unfold resolveUrls
      rw [show (ensure_cache_dir env s).2 = mkdirP s (cacheDirOf env) 0o700 from rfl]
      rw [show (ensure_cache_dir env s).1 = cacheDirOf env from rfl]
      rw [hres]
    simp [main, hmk]

/-! ### Claim theorems: the URL cache (C3) -/

/-- C3: the cache slot of a URL is the SHA3-256 hex digest of the URL string
(a deterministic function of the URL alone), and once a resolution of a URL
has succeeded, resolving the same URL again in the same cache directory
returns the same path, leaves the world unchanged, and in particular issues
no network fetch. -/
theorem resolveUrl_cache_idempotent (env : Env) (url p : String) (s s1 : St)
    (h : resolveUrl env (cacheDirOf env) url s = (.ok p, s1)) :
    p = cacheDirOf env ++ "/" ++ sha3_256_hexdigest url
    ∧ resolveUrl env (cacheDirOf env) url s1 = (.ok p, s1)
    ∧ (resolveUrl env (cacheDirOf env) url s1).2.fetchLog = s1.fetchLog := by
  have hcached : (s1.fs (cacheDirOf env ++ "/" ++ cacheFileName url)).isSome = true
      ∧ p = cacheDirOf env ++ "/" ++ cacheFileName url := by
    unfold resolveUrl at h
    dsimp only at h
    by_cases hx : (s.fs (cacheDirOf env ++ "/" ++ cacheFileName url)).isSome = true
    · rw [if_pos hx] at h
      injection h with h1 h2
      subst h2
      exact ⟨hx, (Except.ok.inj h1).symm⟩
    · rw [if_neg hx] at h
      rcases hg : get_and_save_url env (cacheDirOf env ++ "/" ++ cacheFileName url) url s
        with ⟨res, s'⟩
      rw [hg] at h
      cases res with
      | error e =>
        dsimp only at h
        injection h with h1 h2
        exact absurd h1 (by simp)
      | ok u =>
        dsimp only at h
        injection h with h1 h2
        subst h2
        unfold get_and_save_url at hg
        rcases hd : do_get env url s with ⟨dres, sd⟩
        rw [hd] at hg
        cases dres with
        | error e =>
          dsimp only at hg
          injection hg with hg1 hg2
          exact absurd hg1 (by simp)
        | ok content =>
          dsimp only at hg
          injection hg with hg1 hg2
          obtain ⟨m, hm⟩ := writeTextFile_fs_self sd
            (cacheDirOf env ++ "/" ++ cacheFileName url) content
          rw [← hg2, hm]
          exact ⟨rfl, (Except.ok.inj h1).symm⟩
  obtain ⟨hx1, hp⟩ := hcached
  have hsecond := resolveUrl_hit env (cacheDirOf env) url s1 hx1
  refine ⟨hp, ?_, ?_⟩
  · rw [hsecond, hp]
  · rw [hsecond]

/-- Witness for C3 at a concrete input: resolving the GitHub keys URL of
user `alice` a first time from the empty cache, then a second time. -/
theorem resolveUrl_cache_idempotent_witness :
    ghPath = cacheDirOf env0 ++ "/" ++ sha3_256_hexdigest ghUrl
    ∧ resolveUrl env0 (cacheDirOf env0) ghUrl ghSt1 = (.ok ghPath, ghSt1)
    ∧ (resolveUrl env0 (cacheDirOf env0) ghUrl ghSt1).2.fetchLog = ghSt1.fetchLog :=
  resolveUrl_cache_idempotent env0 ghUrl ghPath st0 ghSt1 (by rfl)

/-! ### Helper lemmas: the merge loop -/

theorem flatBytes_cons (s : St) (f : String) (rest : List String) :
    flatBytes s (f :: rest) = bytesOf s f ++ flatBytes s rest := rfl

theorem flatBytes_congr (s t : St) (files : List String)
    (h : ∀ f ∈ files, t.fs f = s.fs f) : flatBytes t files = flatBytes s files := by
  induction files with
  | nil => rfl
  | cons f rest ih =>
    rw [flatBytes_cons, flatBytes_cons, ih (fun g hg => h g (List.mem_cons_of_mem f hg))]
    have : bytesOf t f = bytesOf s f := by
      unfold bytesOf
      rw [h f (List.mem_cons_self f rest)]
    rw [this]

theorem writeAll_frame (dst : String) (files : List String) (s : St) :
    (∀ q, q ≠ dst → (writeAll dst files s).2.fs q = s.fs q)
    ∧ (writeAll dst files s).2.dirs = s.dirs
    ∧ (writeAll dst files s).2.umask = s.umask
    ∧ (writeAll dst files s).2.fetchLog = s.fetchLog
    ∧ (writeAll dst files s).2.runLog = s.runLog
    ∧ (writeAll dst files s).2.tmpCounter = s.tmpCounter := by
  induction files generalizing s with
  | nil => exact ⟨fun q h => rfl, rfl, rfl, rfl, rfl, rfl⟩
  | cons f rest ih =>
    unfold writeAll
    cases hf : s.fs f with
    | none => exact ⟨fun q h => rfl, rfl, rfl, rfl, rfl, rfl⟩
    | some fd =>
      cases hd : s.fs dst with
      | none => exact ⟨fun q h => rfl, rfl, rfl, rfl, rfl, rfl⟩
      | some dstFd =>
        dsimp only
        obtain ⟨h1, h2, h3, h4, h5, h6⟩ :=
          ih (setFile s dst { dstFd with bytes := dstFd.bytes ++ fd.bytes })
        exact ⟨fun q hq => by rw [h1 q hq, setFile_fs_ne _ _ _ _ hq], h2, h3, h4, h5, h6⟩

theorem writeAll_content (dst : String) (files : List String) (s : St) (acc : List Nat) (m : Nat)
    (hsrc : ∀ f ∈ files, f ≠ dst ∧ (s.fs f).isSome = true)
    (hdst : s.fs dst = some { bytes := acc, mode := m }) :
    (writeAll dst files s).1 = .ok ()
    ∧ (writeAll dst files s).2.fs dst = some { bytes := acc ++ flatBytes s files, mode := m } := by
  induction files generalizing s acc with
  | nil =>
    refine ⟨rfl, ?_⟩
    show s.fs dst = _
    rw [hdst]
    simp [flatBytes]
  | cons f rest ih =>
    obtain ⟨hne, hs⟩ := hsrc f (List.mem_cons_self f rest)
    rw [Option.isSome_iff_exists] at hs
    obtain ⟨fd, hfd⟩ := hs
    unfold writeAll
    rw [hfd, hdst]
    dsimp only
    have hsrc' : ∀ g ∈ rest, g ≠ dst
        ∧ ((setFile s dst { bytes := acc ++ fd.bytes, mode := m }).fs g).isSome = true := by
      intro g hg
      obtain ⟨hgne, hgs⟩ := hsrc g (List.mem_cons_of_mem f hg)
      rw [setFile_fs_ne _ _ _ _ hgne]
      exact ⟨hgne, hgs⟩
    have hdst' : (setFile s dst { bytes := acc ++ fd.bytes, mode := m }).fs dst
        = some { bytes := acc ++ fd.bytes, mode := m } := setFile_fs_self _ _ _
    obtain ⟨w1, w2⟩ := ih (setFile s dst { bytes := acc ++ fd.bytes, mode := m })
      (acc ++ fd.bytes) hsrc' hdst'
    refine ⟨w1, ?_⟩
    rw [w2]
    have hcongr : flatBytes (setFile s dst { bytes := acc ++ fd.bytes, mode := m }) rest
        = flatBytes s rest := by
      apply flatBytes_congr
      intro g hg
      exact setFile_fs_ne _ _ _ _ (hsrc g (List.mem_cons_of_mem f hg)).1
    rw [hcongr, flatBytes_cons]
    have hbf : bytesOf s f = fd.bytes := by
      unfold bytesOf
      rw [hfd]
    rw [hbf, List.append_assoc]

theorem merge_files_ok (files : List String) (s : St)
    (hsrc : ∀ f ∈ files, (s.fs f).isSome = true)
    (hfresh : s.fs (tmpName s.tmpCounter) = none) :
    (merge_files files s).1 = .ok (tmpName s.tmpCounter)
    ∧ (merge_files files s).2.fs (tmpName s.tmpCounter)
        = some { bytes := flatBytes s files, mode := 0o600 }
    ∧ (∀ q, q ≠ tmpName s.tmpCounter → (merge_files files s).2.fs q = s.fs q) := by
  have hne : ∀ f ∈ files, f ≠ tmpName s.tmpCounter := by
    intro f hf heq
    have := hsrc f hf
    rw [heq, hfresh] at this
    exact absurd this (by simp)
  have hs1fs : ∀ q, q ≠ tmpName s.tmpCounter →
      ((setFile { s with tmpCounter := s.tmpCounter + 1 } (tmpName s.tmpCounter)
        { bytes := [], mode := 0o600 }).fs q) = s.fs q := by
    intro q hq
    rw [setFile_fs_ne _ _ _ _ hq]
  have hsrc1 : ∀ f ∈ files, f ≠ tmpName s.tmpCounter
      ∧ (((setFile { s with tmpCounter := s.tmpCounter + 1 } (tmpName s.tmpCounter)
          { bytes := [], mode := 0o600 }).fs f)).isSome = true := by
    intro f hf
    rw [hs1fs f (hne f hf)]
    exact ⟨hne f hf, hsrc f hf⟩
  obtain ⟨w1, w2⟩ := writeAll_content (tmpName s.tmpCounter) files
    (setFile { s with tmpCounter := s.tmpCounter + 1 } (tmpName s.tmpCounter)
      { bytes := [], mode := 0o600 })
    [] 0o600 hsrc1 (setFile_fs_self _ _ _)
  obtain ⟨wf, _, _, _, _, _⟩ := writeAll_frame (tmpName s.tmpCounter) files
    (setFile { s with tmpCounter := s.tmpCounter + 1 } (tmpName s.tmpCounter)
      { bytes := [], mode := 0o600 })
  have hflat : flatBytes (setFile { s with tmpCounter := s.tmpCounter + 1 }
      (tmpName s.tmpCounter) { bytes := [], mode := 0o600 }) files = flatBytes s files :=
    flatBytes_congr _ _ files (fun f hf => hs1fs f (hne f hf))
  rw [hflat] at w2
  unfold merge_files
  dsimp only
  rcases hw : writeAll (tmpName s.tmpCounter) files
    (setFile { s with tmpCounter := s.tmpCounter + 1 } (tmpName s.tmpCounter)
      { bytes := [], mode := 0o600 }) with ⟨res, s2⟩
  rw [hw] at w1 w2 wf
  rw [List.nil_append] at w2
  cases res with
  | error e => exact Except.noConfusion w1
  | ok u =>
    dsimp only
    refine ⟨rfl, ?_, ?_⟩
    · exact w2
    · intro q hq
      exact (wf q hq).trans (hs1fs q hq)

/-! ### Claim theorems: the merge (C1) -/

/-- C1: with two or more resolved key sources (here: `--file` sources), the
assembler returns a freshly created temporary file — a path that did not
exist before the call — whose bytes are exactly the concatenation of the
bytes of each source file in the order the sources were given; nothing is
deduplicated or validated. -/
theorem make_merge_concat (env : Env) (files : List String) (port : String) (quiet : Bool)
    (s : St)
    (h2 : 2 ≤ files.length)
    (hsrc : ∀ f ∈ files, (s.fs f).isSome = true)
    (hfresh : s.fs (tmpName s.tmpCounter) = none) :
    (make_authorized_keys env { file := some files, port := port, quiet := quiet } s).1
        = .ok (tmpName s.tmpCounter)
    ∧ s.fs (tmpName s.tmpCounter) = none
    ∧ (make_authorized_keys env { file := some files, port := port, quiet := quiet } s).2.fs
        (tmpName s.tmpCounter) = some { bytes := flatBytes s files, mode := 0o600 } := by
  cases files with
  | nil => simp at h2
  | cons f1 t =>
    cases t with
    | nil => simp at h2
    | cons f2 t2 =>
      have hmm : make_authorized_keys env
          { file := some (f1 :: f2 :: t2), port := port, quiet := quiet } s
          = merge_files (f1 :: f2 :: t2) s := rfl
      rw [hmm]
      obtain ⟨m1, m2, _⟩ := merge_files_ok (f1 :: f2 :: t2) s hsrc hfresh
      exact ⟨m1, hfresh, m2⟩

/-- Witness for C1 at a concrete input: merging the two fixture key files
(contents `keyA\n` and `keyB\n`) produces the fresh temporary file holding
their concatenation. -/
theorem make_merge_concat_witness :
    (make_authorized_keys env0
        { file := some ["/keys/a", "/keys/b"], port := "2222", quiet := false } st0).1
        = .ok (tmpName st0.tmpCounter)
    ∧ st0.fs (tmpName st0.tmpCounter) = none
    ∧ (make_authorized_keys env0
        { file := some ["/keys/a", "/keys/b"], port := "2222", quiet := false } st0).2.fs
        (tmpName st0.tmpCounter)
        = some { bytes := flatBytes st0 ["/keys/a", "/keys/b"], mode := 0o600 } :=
  make_merge_concat env0 ["/keys/a", "/keys/b"] "2222" false st0
    (by decide) (by decide) (by decide)

/-! ### Helper lemmas: state shapes of the URL-resolution pipeline -/

theorem do_get_snd (env : Env) (url : String) (s : St) :
    (do_get env url s).2 = { s with fetchLog := s.fetchLog ++ [url] } := by
  unfold do_get
  dsimp only
  cases env.network url with
  | none => rfl
  | some r =>
    dsimp only
    split <;> rfl

theorem get_and_save_url_cases (env : Env) (file url : String) (s : St) :
    (get_and_save_url env file url s).2 = { s with fetchLog := s.fetchLog ++ [url] }
    ∨ ∃ content, (get_and_save_url env file url s).2
        = writeTextFile { s with fetchLog := s.fetchLog ++ [url] } file content := by
  unfold get_and_save_url
  rcases hd : do_get env url s with ⟨dres, sd⟩
  have hsd : sd = { s with fetchLog := s.fetchLog ++ [url] } := by
    have h := do_get_snd env url s
    rw [hd] at h
    exact h
  cases dres with
  | error e =>
    dsimp only
    exact Or.inl hsd
  | ok content =>
    dsimp only
    exact Or.inr ⟨content, by rw [hsd]⟩

theorem resolveUrl_snd_cases (env : Env) (cd url : String) (s : St) :
    (resolveUrl env cd url s).2 = s
    ∨ (resolveUrl env cd url s).2 = { s with fetchLog := s.fetchLog ++ [url] }
    ∨ ∃ content, (resolveUrl env cd url s).2
        = writeTextFile { s with fetchLog := s.fetchLog ++ [url] }
          (cd ++ "/" ++ cacheFileName url) content := by
  unfold resolveUrl
  dsimp only
  by_cases hx : (s.fs (cd ++ "/" ++ cacheFileName url)).isSome = true
  · rw [if_pos hx]
    exact Or.inl rfl
  · rw [if_neg hx]
    rcases hg : get_and_save_url env (cd ++ "/" ++ cacheFileName url) url s with ⟨res, s'⟩
    have hc := get_and_save_url_cases env (cd ++ "/" ++ cacheFileName url) url s
    rw [hg] at hc
    cases res with
    | error e =>
      dsimp only
      rcases hc with h | ⟨content, h⟩
      · exact Or.inr (Or.inl h)
      · exact Or.inr (Or.inr ⟨content, h⟩)
    | ok u =>
      dsimp only
      rcases hc with h | ⟨content, h⟩
      · exact Or.inr (Or.inl h)
      · exact Or.inr (Or.inr ⟨content, h⟩)

theorem writeTextFile_dirs (s : St) (p c : String) : (writeTextFile s p c).dirs = s.dirs := by
  unfold writeTextFile
  cases s.fs p <;> rfl

theorem writeTextFile_umask (s : St) (p c : String) : (writeTextFile s p c).umask = s.umask := by
  unfold writeTextFile
  cases s.fs p <;> rfl

theorem writeTextFile_runLog (s : St) (p c : String) :
    (writeTextFile s p c).runLog = s.runLog := by
  unfold writeTextFile
  cases s.fs p <;> rfl

theorem writeTextFile_tmpCounter (s : St) (p c : String) :
    (writeTextFile s p c).tmpCounter = s.tmpCounter := by
  unfold writeTextFile
  cases s.fs p <;> rfl

theorem writeTextFile_fetchLog (s : St) (p c : String) :
    (writeTextFile s p c).fetchLog = s.fetchLog := by
  unfold writeTextFile
  cases s.fs p <;> rfl

/-- A file present after `writeTextFile` was present before with the same
data, or was just created with mode `0o666 & ~umask`, or was overwritten
keeping its old mode. -/
theorem writeTextFile_fs_cases (s : St) (p c : String) (q : String) (fd : FileData)
    (h : (writeTextFile s p c).fs q = some fd) :
    s.fs q = some fd ∨ (s.fs q = none ∧ fd.mode = maskMode 0o666 s.umask)
    ∨ (∃ fd0, s.fs q = some fd0 ∧ fd.mode = fd0.mode) := by
  by_cases hq : q = p
  · subst hq
    unfold writeTextFile at h
    cases hx : s.fs q with
    | none =>
      rw [hx] at h
      rw [setFile_fs_self] at h
      have := (Option.some.inj h).symm
      exact Or.inr (Or.inl ⟨rfl, by rw [this]⟩)
    | some fd0 =>
      rw [hx] at h
      rw [setFile_fs_self] at h
      have := (Option.some.inj h).symm
      exact Or.inr (Or.inr ⟨fd0, rfl, by rw [this]⟩)
  · rw [writeTextFile_fs_ne s p c q hq] at h
    exact Or.inl h

theorem writeTextFile_fs_none (s : St) (p c : String) (q : String)
    (h : (writeTextFile s p c).fs q = none) : s.fs q = none := by
  by_cases hq : q = p
  · subst hq
    unfold writeTextFile at h
    cases hx : s.fs q with
    | none => exact rfl
    | some fd0 =>
      rw [hx] at h
      rw [setFile_fs_self] at h
      exact Option.noConfusion h
  · rw [writeTextFile_fs_ne s p c q hq] at h
    exact h

/-- One step of the URL loop: the umask, created directories, subprocess log
and temp counter are untouched; a file present afterwards was present
before, was created with mode `0o666 & ~umask`, or kept an existing mode;
a file absent afterwards was absent before. -/
theorem resolveUrl_state (env : Env) (cd url : String) (s : St) :
    (resolveUrl env cd url s).2.umask = s.umask
    ∧ (resolveUrl env cd url s).2.dirs = s.dirs
    ∧ (resolveUrl env cd url s).2.runLog = s.runLog
    ∧ (resolveUrl env cd url s).2.tmpCounter = s.tmpCounter
    ∧ (∀ q fd, (resolveUrl env cd url s).2.fs q = some fd →
        s.fs q = some fd ∨ (s.fs q = none ∧ fd.mode = maskMode 0o666 s.umask)
        ∨ (∃ fd0, s.fs q = some fd0 ∧ fd.mode = fd0.mode))
    ∧ (∀ q, (resolveUrl env cd url s).2.fs q = none → s.fs q = none) := by
  rcases resolveUrl_snd_cases env cd url s with h | h | ⟨content, h⟩
  · rw [h]
    exact ⟨rfl, rfl, rfl, rfl, fun q fd hf => Or.inl hf, fun q hf => hf⟩
  · rw [h]
    exact ⟨rfl, rfl, rfl, rfl, fun q fd hf => Or.inl hf, fun q hf => hf⟩
  · rw [h]
    refine ⟨writeTextFile_umask _ _ _, writeTextFile_dirs _ _ _, writeTextFile_runLog _ _ _,
      writeTextFile_tmpCounter _ _ _, fun q fd hf => ?_,
      fun q hf => writeTextFile_fs_none { s with fetchLog := s.fetchLog ++ [url] }
        (cd ++ "/" ++ cacheFileName url) content q hf⟩
    exact writeTextFile_fs_cases { s with fetchLog := s.fetchLog ++ [url] }
      (cd ++ "/" ++ cacheFileName url) content q fd hf

/-- The whole URL loop enjoys the same state shape as each of its steps. -/
theorem resolveUrls_state (env : Env) (cd : String) (urls : List String) (s : St) :
    (resolveUrls env cd urls s).2.umask = s.umask
    ∧ (resolveUrls env cd urls s).2.dirs = s.dirs
    ∧ (resolveUrls env cd urls s).2.runLog = s.runLog
    ∧ (resolveUrls env cd urls s).2.tmpCounter = s.tmpCounter
    ∧ (∀ q fd, (resolveUrls env cd urls s).2.fs q = some fd →
        s.fs q = some fd ∨ (s.fs q = none ∧ fd.mode = maskMode 0o666 s.umask)
        ∨ (∃ fd0, s.fs q = some fd0 ∧ fd.mode = fd0.mode))
    ∧ (∀ q, (resolveUrls env cd urls s).2.fs q = none → s.fs q = none) := by
  induction urls generalizing s with
  | nil => exact ⟨rfl, rfl, rfl, rfl, fun q fd hf => Or.inl hf, fun q hf => hf⟩
  | cons u rest ih =>
    unfold resolveUrls
    rcases hr : resolveUrl env cd u s with ⟨res, s1⟩
    have step := resolveUrl_state env cd u s
    rw [hr] at step
    obtain ⟨su, sd, sr, st, sfs, snone⟩ := step
    cases res with
    | error e =>
      dsimp only
      exact ⟨su, sd, sr, st, sfs, snone⟩
    | ok p =>
      dsimp only
      rcases hrs : resolveUrls env cd rest s1 with ⟨res2, s2⟩
      have loop := ih s1
      rw [hrs] at loop
      obtain ⟨lu, ld, lr, lt, lfs, lnone⟩ := loop
      have hfs2 : ∀ q fd, s2.fs q = some fd →
          s.fs q = some fd ∨ (s.fs q = none ∧ fd.mode = maskMode 0o666 s.umask)
          ∨ (∃ fd0, s.fs q = some fd0 ∧ fd.mode = fd0.mode) := by
        intro q fd hf
        rcases lfs q fd hf with h1 | ⟨h1, h1m⟩ | ⟨fd0, h1, h1m⟩
        · exact sfs q fd h1
        · rw [su] at h1m
          exact Or.inr (Or.inl ⟨snone q h1, h1m⟩)
        · rcases sfs q fd0 h1 with h2 | ⟨h2, h2m⟩ | ⟨fd1, h2, h2m⟩
          · exact Or.inr (Or.inr ⟨fd0, h2, h1m⟩)
          · exact Or.inr (Or.inl ⟨h2, by rw [h1m, h2m]⟩)
          · exact Or.inr (Or.inr ⟨fd1, h2, by rw [h1m, h2m]⟩)
      have hnone2 : ∀ q, s2.fs q = none → s.fs q = none := fun q hf => snone q (lnone q hf)
      cases res2 with
      | error e =>
        dsimp only
        exact ⟨lu.trans su, ld.trans sd, lr.trans sr, lt.trans st, hfs2, hnone2⟩
      | ok ps =>
        dsimp only
        exact ⟨lu.trans su, ld.trans sd, lr.trans sr, lt.trans st, hfs2, hnone2⟩

theorem merge_files_frame (files : List String) (s : St) :
    (merge_files files s).2.fetchLog = s.fetchLog
    ∧ (merge_files files s).2.dirs = s.dirs
    ∧ (merge_files files s).2.umask = s.umask
    ∧ (merge_files files s).2.runLog = s.runLog
    ∧ (∀ q, q ≠ tmpName s.tmpCounter → (merge_files files s).2.fs q = s.fs q) := by
  unfold merge_files
  dsimp only
  rcases hw : writeAll (tmpName s.tmpCounter) files
    (setFile { s with tmpCounter := s.tmpCounter + 1 } (tmpName s.tmpCounter)
      { bytes := [], mode := 0o600 }) with ⟨res, s2⟩
  obtain ⟨wfq, wd, wu, wfe, wr, wtc⟩ := writeAll_frame (tmpName s.tmpCounter) files
    (setFile { s with tmpCounter := s.tmpCounter + 1 } (tmpName s.tmpCounter)
      { bytes := [], mode := 0o600 })
  rw [hw] at wfq wd wu wfe wr wtc
  cases res with
  | error e =>
    dsimp only
    exact ⟨wfe, wd, wu, wr, fun q h => (wfq q h).trans (setFile_fs_ne _ _ _ _ h)⟩
  | ok u =>
    dsimp only
    exact ⟨wfe, wd, wu, wr, fun q h => (wfq q h).trans (setFile_fs_ne _ _ _ _ h)⟩

theorem selectSource_frame (env : Env) (sources : List String) (t : St) :
    (selectSource env sources t).2.fetchLog = t.fetchLog
    ∧ (selectSource env sources t).2.dirs = t.dirs
    ∧ (selectSource env sources t).2.umask = t.umask
    ∧ (selectSource env sources t).2.runLog = t.runLog
    ∧ (∀ q, q ≠ tmpName t.tmpCounter → (selectSource env sources t).2.fs q = t.fs q) := by
  cases sources with
  | nil =>
    unfold selectSource
    dsimp only
    split <;> exact ⟨rfl, rfl, rfl, rfl, fun q h => rfl⟩
  | cons f rest =>
    cases rest with
    | nil => exact ⟨rfl, rfl, rfl, rfl, fun q h => rfl⟩
    | cons f2 r2 => exact merge_files_frame (f :: f2 :: r2) t

/-! ### Claim theorems: frame effects (C9, C10) -/

/-- C9: with no `--url` and no `--github` sources (only `--file` sources or
none at all), assembly issues no network fetch, creates no directory (in
particular not the key cache directory), and touches no file under the key
cache directory.  The hypothesis records that `tempfile` names live under
`/tmp`, outside the cache directory. -/
theorem make_no_urls_no_network (env : Env) (fOpt : Option (List String)) (port : String)
    (quiet : Bool) (s : St)
    (htmp : (tmpName s.tmpCounter).startsWith (cacheDirOf env ++ "/") = false) :
    (make_authorized_keys env { file := fOpt, port := port, quiet := quiet } s).2.fetchLog
        = s.fetchLog
    ∧ (make_authorized_keys env { file := fOpt, port := port, quiet := quiet } s).2.dirs
        = s.dirs
    ∧ (∀ p, p.startsWith (cacheDirOf env ++ "/") = true →
        (make_authorized_keys env { file := fOpt, port := port, quiet := quiet } s).2.fs p
          = s.fs p) := by
  have hmk : make_authorized_keys env { file := fOpt, port := port, quiet := quiet } s
      = selectSource env (fOpt.getD []) s := rfl
  obtain ⟨sfe, sd, _, _, sfs⟩ := selectSource_frame env (fOpt.getD []) s
  rw [hmk]
  refine ⟨sfe, sd, ?_⟩
  intro p hp
  have hne : p ≠ tmpName s.tmpCounter := by
    intro he
    rw [he] at hp
    rw [hp] at htmp
    exact Bool.noConfusion htmp
  exact sfs p hne

/-- Witness for C9 at a concrete input: two `--file` sources and no URL
sources under the fixture environment. -/
theorem make_no_urls_no_network_witness :
    (make_authorized_keys env0
        { file := some ["/keys/a", "/keys/b"], port := "2222", quiet := false } st0).2.fetchLog
        = st0.fetchLog
    ∧ (make_authorized_keys env0
        { file := some ["/keys/a", "/keys/b"], port := "2222", quiet := false } st0).2.dirs
        = st0.dirs
    ∧ (∀ p, p.startsWith (cacheDirOf env0 ++ "/") = true →
        (make_authorized_keys env0
          { file := some ["/keys/a", "/keys/b"], port := "2222", quiet := false } st0).2.fs p
          = st0.fs p) :=
  make_no_urls_no_network env0 (some ["/keys/a", "/keys/b"]) "2222" false st0 (by decide)

theorem mkdirP_dirs_new (s : St) (p : String) (m : Nat)
    (h : (s.dirs.lookup p).isSome = false) :
    (mkdirP s p m).dirs = (p, maskMode m s.umask) :: s.dirs := by
  unfold mkdirP
  rw [h]
  rfl

/-- Requesting mode `0o700` can never grant group or other bits, whatever the
umask. -/
theorem maskMode_700_ownerOnly (u : Nat) : maskMode 0o700 u &&& 0o077 = 0 := by
  unfold maskMode
  rw [Nat.land_comm 0o700 (0o7777 ^^^ (u &&& 0o7777)), Nat.land_assoc]
  have h07 : (0o700 : Nat) &&& 0o077 = 0 := by rfl
  rw [h07]
  simp

/-- C10: while URL sources are being resolved the process umask is `0o022`,
so every cache entry file created during a successful assembly has mode
`0o644` — world-readable — even though the cache directory itself, created
before with the caller's umask against a requested `0o700`, never carries
group or other bits; and after a successful run the original umask is back
in place. -/
theorem make_url_umask_modes (env : Env) (fOpt uOpt gOpt : Option (List String))
    (port : String) (quiet : Bool) (s : St) (r : String)
    (hne : (uOpt.getD [] ++ (gOpt.getD []).map githubKeysUrl).isEmpty = false)
    (htmp : (tmpName s.tmpCounter).startsWith (cacheDirOf env ++ "/") = false)
    (hok : (make_authorized_keys env
        { file := fOpt, url := uOpt, github := gOpt, port := port, quiet := quiet } s).1
      = .ok r) :
    (make_authorized_keys env
        { file := fOpt, url := uOpt, github := gOpt, port := port, quiet := quiet } s).2.umask
      = s.umask
    ∧ (∀ q fd, s.fs q = none →
        (make_authorized_keys env
          { file := fOpt, url := uOpt, github := gOpt, port := port, quiet := quiet } s).2.fs q
          = some fd →
        q.startsWith (cacheDirOf env ++ "/") = true →
        fd.mode = 0o644 ∧ fd.mode &&& 0o004 ≠ 0)
    ∧ ((s.dirs.lookup (cacheDirOf env)).isSome = false →
        (make_authorized_keys env
          { file := fOpt, url := uOpt, github := gOpt, port := port, quiet := quiet } s).2.dirs.lookup
          (cacheDirOf env) = some (maskMode 0o700 s.umask)
        ∧ maskMode 0o700 s.umask &&& 0o077 = 0) := by
  have hmk : make_authorized_keys env
      { file := fOpt, url := uOpt, github := gOpt, port := port, quiet := quiet } s
      = (match resolveUrls env (cacheDirOf env)
            (uOpt.getD [] ++ (gOpt.getD []).map githubKeysUrl)
            { mkdirP s (cacheDirOf env) 0o700 with umask := 0o022 } with
         | (.ok ps, s3) => selectSource env (fOpt.getD [] ++ ps)
             { s3 with umask := (mkdirP s (cacheDirOf env) 0o700).umask }
         | (.error e, s3) => (.error e, s3)) := by
    unfold make_authorized_keys
    rw [if_neg (by rw [hne]; exact Bool.noConfusion)]
    rfl
  rcases hres : resolveUrls env (cacheDirOf env)
      (uOpt.getD [] ++ (gOpt.getD []).map githubKeysUrl)
      { mkdirP s (cacheDirOf env) 0o700 with umask := 0o022 } with ⟨res, s3⟩
  rw [hres] at hmk
  have loop := resolveUrls_state env (cacheDirOf env)
      (uOpt.getD [] ++ (gOpt.getD []).map githubKeysUrl)
      { mkdirP s (cacheDirOf env) 0o700 with umask := 0o022 }
  rw [hres] at loop
  obtain ⟨lu, ld, _, lt, lfs, _⟩ := loop
  cases res with
  | error e =>
    rw [hmk] at hok
    exact Except.noConfusion hok
  | ok ps =>
    rw [hmk]
    dsimp only
    obtain ⟨_, seld, selu, _, selfs⟩ := selectSource_frame env (fOpt.getD [] ++ ps)
      { s3 with umask := (mkdirP s (cacheDirOf env) 0o700).umask }
    refine ⟨?_, ?_, ?_⟩
    · rw [selu]
      show (mkdirP s (cacheDirOf env) 0o700).umask = s.umask
      exact mkdirP_umask s _ _
    · intro q fd hnone hsome hq
      have hqne : q ≠ tmpName ({ s3 with
          umask := (mkdirP s (cacheDirOf env) 0o700).umask } : St).tmpCounter := by
        show q ≠ tmpName s3.tmpCounter
        have : s3.tmpCounter = s.tmpCounter := by
          rw [lt]
          show (mkdirP s (cacheDirOf env) 0o700).tmpCounter = s.tmpCounter
          exact mkdirP_tmpCounter s _ _
        rw [this]
        intro he
        rw [he] at hq
        rw [hq] at htmp
        exact Bool.noConfusion htmp
      have h3 : s3.fs q = some fd := by
        have := selfs q hqne
        rw [hsome] at this
        exact this.symm
      rcases lfs q fd h3 with h1 | ⟨_, h1m⟩ | ⟨fd0, h1, _⟩
      · rw [show ({ mkdirP s (cacheDirOf env) 0o700 with umask := 0o022 } : St).fs q
            = s.fs q from mkdirP_fs s _ _ ▸ rfl, hnone] at h1
        exact Option.noConfusion h1
      · have hmode : fd.mode = 0o644 := by
          rw [h1m]
          show maskMode 0o666 0o022 = 0o644
          decide
        exact ⟨hmode, by rw [hmode]; decide⟩
      · rw [show ({ mkdirP s (cacheDirOf env) 0o700 with umask := 0o022 } : St).fs q
            = s.fs q from mkdirP_fs s _ _ ▸ rfl, hnone] at h1
        exact Option.noConfusion h1
    · intro hlk
      refine ⟨?_, maskMode_700_ownerOnly s.umask⟩
      rw [seld]
      show s3.dirs.lookup (cacheDirOf env) = _
      rw [ld]
      show (mkdirP s (cacheDirOf env) 0o700).dirs.lookup (cacheDirOf env) = _
      rw [mkdirP_dirs_new s (cacheDirOf env) 0o700 (by rw [hlk])]
      simp [List.lookup]

/-- Witness for C10 at a concrete input: one `--url` source fetched
successfully into the empty cache under the fixture environment. -/
theorem make_url_umask_modes_witness :
    (make_authorized_keys env0
        { file := none, url := some [ghUrl], github := none, port := "2222", quiet := false }
        st0).2.umask = st0.umask
    ∧ (∀ q fd, st0.fs q = none →
        (make_authorized_keys env0
          { file := none, url := some [ghUrl], github := none, port := "2222", quiet := false }
          st0).2.fs q = some fd →
        q.startsWith (cacheDirOf env0 ++ "/") = true →
        fd.mode = 0o644 ∧ fd.mode &&& 0o004 ≠ 0)
    ∧ ((st0.dirs.lookup (cacheDirOf env0)).isSome = false →
        (make_authorized_keys env0
          { file := none, url := some [ghUrl], github := none, port := "2222", quiet := false }
          st0).2.dirs.lookup (cacheDirOf env0) = some (maskMode 0o700 st0.umask)
        ∧ maskMode 0o700 st0.umask &&& 0o077 = 0) :=
  make_url_umask_modes env0 none (some [ghUrl]) none "2222" false st0 ghPath
    (by decide) (by decide) (by rfl)

/-! ### Helper lemmas: line splitting and directive parsing (for C2) -/

theorem splitNl_cons (c : Char) (ys : List Char) :
    splitNl (c :: ys) = if c = '\n' then ([], (splitNl ys).1 :: (splitNl ys).2)
      else (c :: (splitNl ys).1, (splitNl ys).2) := rfl

theorem splitNl_cons_nl (ys : List Char) :
    splitNl ('\n' :: ys) = ([], (splitNl ys).1 :: (splitNl ys).2) := by
  rw [splitNl_cons, if_pos rfl]

theorem splitNl_cons_other (c : Char) (ys : List Char) (hc : c ≠ '\n') :
    splitNl (c :: ys) = (c :: (splitNl ys).1, (splitNl ys).2) := by
  rw [splitNl_cons, if_neg hc]

theorem splitNl_append_no_nl (xs ys : List Char) (h : ∀ c ∈ xs, c ≠ '\n') :
    splitNl (xs ++ ys) = (xs ++ (splitNl ys).1, (splitNl ys).2) := by
  induction xs with
  | nil => simp
  | cons c cs ih =>
    rw [List.cons_append, splitNl_cons_other c _ (h c (List.mem_cons_self c cs)),
        ih (fun d hd => h d (List.mem_cons_of_mem c hd))]
    rfl

theorem stripKey_self_append (key rest : List Char) : stripKey key (key ++ rest) = some rest := by
  induction key with
  | nil => rfl
  | cons k ks ih =>
    rw [List.cons_append]
    unfold stripKey
    rw [if_pos rfl, ih]

/-- A mismatch already inside `pre` (which is at least as long as the key)
survives any extension of the line. -/
theorem stripKey_append_of_none (key pre rest : List Char)
    (h : stripKey key pre = none) (hlen : key.length ≤ pre.length) :
    stripKey key (pre ++ rest) = none := by
  induction key generalizing pre with
  | nil => exact Option.noConfusion h
  | cons k ks ih =>
    cases pre with
    | nil => simp at hlen
    | cons c cs =>
      rw [List.cons_append]
      unfold stripKey
      unfold stripKey at h
      by_cases hc : k = c
      · rw [if_pos hc] at h ⊢
        exact ih cs h (by simpa using hlen)
      · rw [if_neg hc]

/-- The generated configuration, split at newlines, is exactly the five
directive lines framed by two empty lines — provided the interpolated path
and user name contain no newline themselves. -/
theorem lines_config (p u : String) (hp : ∀ c ∈ p.data, c ≠ '\n') (hu : ∀ c ∈ u.data, c ≠ '\n') :
    linesOf (generate_sshd_config p u)
      = [[], "AuthorizedKeysFile\t".data ++ p.data, "AllowUsers\t".data ++ u.data,
         "PubkeyAuthentication\tyes".data, "PasswordAuthentication\tno".data,
         "PermitRootLogin\tno".data, []] := by
  have hdata : (generate_sshd_config p u).data
      = '\n' :: ("AuthorizedKeysFile\t".data ++ (p.data ++ ('\n' :: ("AllowUsers\t".data
          ++ (u.data ++ ('\n' :: ("PubkeyAuthentication\tyes".data ++ ('\n' ::
            ("PasswordAuthentication\tno".data ++ ('\n' :: ("PermitRootLogin\tno".data
              ++ ('\n' :: ([] : List Char))))))))))))) := by
    unfold generate_sshd_config
    simp [String.data_append, List.append_assoc]
  unfold linesOf
  rw [hdata, splitNl_cons_nl,
      splitNl_append_no_nl _ _ (by decide : ∀ c ∈ "AuthorizedKeysFile\t".data, c ≠ '\n'),
      splitNl_append_no_nl _ _ hp, splitNl_cons_nl,
      splitNl_append_no_nl _ _ (by decide : ∀ c ∈ "AllowUsers\t".data, c ≠ '\n'),
      splitNl_append_no_nl _ _ hu, splitNl_cons_nl,
      splitNl_append_no_nl _ _ (by decide : ∀ c ∈ "PubkeyAuthentication\tyes".data, c ≠ '\n'),
      splitNl_cons_nl,
      splitNl_append_no_nl _ _ (by decide : ∀ c ∈ "PasswordAuthentication\tno".data, c ≠ '\n'),
      splitNl_cons_nl,
      splitNl_append_no_nl _ _ (by decide : ∀ c ∈ "PermitRootLogin\tno".data, c ≠ '\n'),
      splitNl_cons_nl]
  simp [splitNl]

/-! ### Claim theorems: the generated configuration (C2) -/

/-- C2, counterexample to the claim as stated: the assembler hands a single
`--file` source through unchanged, so for the relative path `mykeys` the
generated configuration references exactly the relative path `mykeys` — not
an absolute path. -/
theorem generate_sshd_config_relative_counterexample :
    make_authorized_keys env0 { file := some ["mykeys"], port := "2222", quiet := false } st0
      = (.ok "mykeys", st0)
    ∧ (linesOf (generate_sshd_config "mykeys" "alice")).filterMap
        (stripKey "AuthorizedKeysFile\t".data) = ["mykeys".data]
    ∧ isAbsolute "mykeys" = false := by
  refine ⟨rfl, by decide, by decide⟩

/-- C2 (amended): for every path and user name free of newline characters,
the generated configuration holds exactly one `AllowUsers` directive, naming
the invoking user; it enables public-key authentication, disables password
authentication and disables root login; and it references the
authorized-keys file by exactly the path it was given (which is absolute
only when that path is). -/
theorem generate_sshd_config_directives (p u : String)
    (hp : ∀ c ∈ p.data, c ≠ '\n') (hu : ∀ c ∈ u.data, c ≠ '\n') :
    (linesOf (generate_sshd_config p u)).filterMap (stripKey "AllowUsers\t".data) = [u.data]
    ∧ (linesOf (generate_sshd_config p u)).filterMap (stripKey "AuthorizedKeysFile\t".data)
        = [p.data]
    ∧ "PubkeyAuthentication\tyes".data ∈ linesOf (generate_sshd_config p u)
    ∧ "PasswordAuthentication\tno".data ∈ linesOf (generate_sshd_config p u)
    ∧ "PermitRootLogin\tno".data ∈ linesOf (generate_sshd_config p u) := by
  rw [lines_config p u hp hu]
  have r2 : stripKey "AllowUsers\t".data ("AuthorizedKeysFile\t".data ++ p.data) = none :=
    stripKey_append_of_none _ _ _ (by decide) (by decide)
  have r3 : stripKey "AllowUsers\t".data ("AllowUsers\t".data ++ u.data) = some u.data :=
    stripKey_self_append _ _
  have s2 : stripKey "AuthorizedKeysFile\t".data ("AuthorizedKeysFile\t".data ++ p.data)
      = some p.data := stripKey_self_append _ _
  have s3 : stripKey "AuthorizedKeysFile\t".data ("AllowUsers\t".data ++ u.data) = none := by
    have h1 : "AllowUsers\t".data
        = ['A', 'l', 'l', 'o', 'w', 'U', 's', 'e', 'r', 's', '\t'] := rfl
    rw [h1]
    show stripKey "AuthorizedKeysFile\t".data
      ('A' :: 'l' :: ('l' :: 'o' :: 'w' :: 'U' :: 's' :: 'e' :: 'r' :: 's' :: '\t' :: [] ++ u.data))
      = none
    have h2 : "AuthorizedKeysFile\t".data
        = 'A' :: 'u' :: "thorizedKeysFile\t".data := rfl
    rw [h2]
    unfold stripKey
    rw [if_pos rfl]
    unfold stripKey
    rw [if_neg (by decide : ('u' : Char) ≠ 'l')]
  refine ⟨?_, ?_, ?_, ?_, ?_⟩
  · simp [List.filterMap_cons, r2, r3, stripKey]
  · simp [List.filterMap_cons, s2, s3, stripKey]
  · exact List.mem_cons_of_mem _ (List.mem_cons_of_mem _ (List.mem_cons_of_mem _
      (List.mem_cons_self _ _)))
  · exact List.mem_cons_of_mem _ (List.mem_cons_of_mem _ (List.mem_cons_of_mem _
      (List.mem_cons_of_mem _ (List.mem_cons_self _ _))))
  · exact List.mem_cons_of_mem _ (List.mem_cons_of_mem _ (List.mem_cons_of_mem _
      (List.mem_cons_of_mem _ (List.mem_cons_of_mem _ (List.mem_cons_self _ _)))))

/-- Witness for the amended C2 at a concrete input: path `/tmp/ak` and user
`alice`. -/
theorem generate_sshd_config_directives_witness :
    (linesOf (generate_sshd_config "/tmp/ak" "alice")).filterMap
        (stripKey "AllowUsers\t".data) = ["alice".data]
    ∧ (linesOf (generate_sshd_config "/tmp/ak" "alice")).filterMap
        (stripKey "AuthorizedKeysFile\t".data) = ["/tmp/ak".data]
    ∧ "PubkeyAuthentication\tyes".data ∈ linesOf (generate_sshd_config "/tmp/ak" "alice")
    ∧ "PasswordAuthentication\tno".data ∈ linesOf (generate_sshd_config "/tmp/ak" "alice")
    ∧ "PermitRootLogin\tno".data ∈ linesOf (generate_sshd_config "/tmp/ak" "alice") :=
  generate_sshd_config_directives "/tmp/ak" "alice" (by decide) (by decide)

end Tmpssh
